import Mathlib

/-!
Shallow embedding of the genie-wrapper orchestration layer.

Source files embedded:
* `genie_wrapper/core/docker_runner.py` — the containerized runner
  (`DockerGenieRunner`): path resolution (`_resolve_paths`), command
  construction (`compress`, `decompress`) and process-result handling
  (`_run_command`).
* `genie_wrapper/api.py` — the public functions `compress`/`decompress`
  and the runner selector `_get_runner`.

Modelling conventions:
* A Python string-or-None argument is `Option String`; Python truthiness
  of such a value (`if p:`) is `pyTruthy`.
* `Path(p).resolve()` depends on the host filesystem, so it is abstracted
  as a parameter `res : String → AbsPath`, where an `AbsPath` carries the
  two projections the code uses: `parent` and `name` (basename).
* The external process is abstracted as `proc : List String → ProcResult`
  mapping the constructed argument vector to an exit code and the two
  captured streams.  `compressRun`/`decompressRun` return the wrapper's
  result together with the list of invocations actually issued, so that
  "raised before any process is invoked" is the log being empty.
* Python exceptions are the error side of `Except PyError`.
-/

namespace GenieWrapper

/-- The Python exceptions the wrapper can raise: `ValueError`,
`RuntimeError` (both carrying their message) and the `IndexError`
latent in `paths[0], paths[1], paths[2]`. -/
inductive PyError where
  | valueError (msg : String)
  | runtimeError (msg : String)
  | indexError
deriving DecidableEq, Repr

/-- The two projections of a resolved absolute `pathlib.Path` the code
uses: `p.parent` (rendered as a string) and `p.name` (the basename). -/
structure AbsPath where
  parent : String
  name : String
deriving DecidableEq, Repr

/-- Python truthiness of a string-or-None value: `None` and `""` are
falsy, every other string is truthy. -/
def pyTruthy : Option String → Bool
  | none => false
  | some s => !(s == "")

/-- Python's `needle in hay` on strings: substring containment. -/
def strContains (hay needle : String) : Bool :=
  decide (needle.data <:+: hay.data)

/-- Captured outcome of one external process invocation: exit status and
the two captured text streams (`subprocess.run(..., capture_output=True,
text=True)`). -/
structure ProcResult where
  exitCode : Int
  stdout : String
  stderr : String

namespace DockerGenieRunner

/-- The default container image of `DockerGenieRunner.__init__`, the one
`_get_runner` instantiates the class with. -/
def image : String := "muefab/genie:latest"

/-- The message of the path-layout `ValueError` in `_resolve_paths`. -/
def sameDirMsg : String := "All files must be in the same directory for Docker binding."

/-- The message of the `RuntimeError` raised by `_run_command`:
`f"Genie Docker failed:\n{stderr}"`. -/
def failMsg (stderr : String) : String := "Genie Docker failed:\n" ++ stderr

/-- `[Path(p).resolve() for p in paths if p]`: the truthy entries,
resolved in order. -/
def resolvedList (res : String → AbsPath) (paths : List (Option String)) : List AbsPath :=
  paths.filterMap fun p =>
    match p with
    | some s => if s = "" then none else some (res s)
    | none => none

/-- `_resolve_paths`: resolve the truthy paths, collect the set of their
parents, fail unless that set has exactly one element, and return the
resolved list together with the single shared parent (the bind dir). -/
def resolvePaths (res : String → AbsPath) (paths : List (Option String)) :
    Except PyError (List AbsPath × String) :=
  match ((resolvedList res paths).map AbsPath.parent).dedup with
  | [d] => .ok (resolvedList res paths, d)
  | _ => .error (.valueError sameDirMsg)

/-- The argument vector built by `DockerGenieRunner.compress` once the
paths are resolved: the fixed docker/bind-mount/image head, `-i`/`-o`
with in-container paths, the fixed `--qv none` and `-f` flags, then the
conditional `--low-latency` and `-r` suffixes, in source order. -/
def compressCmdList (bindDir ipName opName : String) (refName : Option String)
    (lowLatency : Bool) : List String :=
  ["docker", "run", "--rm",
   "-v", bindDir ++ ":/work",
   image,
   "run",
   "-i", "/work/" ++ ipName,
   "-o", "/work/" ++ opName,
   "--qv", "none",
   "-f"]
  ++ (if lowLatency then ["--low-latency"] else [])
  ++ (match refName with
      | some n => ["-r", "/work/" ++ n]
      | none => [])

/-- The argument vector built by `DockerGenieRunner.decompress`: same as
compression but with no quality-value flag and no low-latency flag. -/
def decompressCmdList (bindDir ipName opName : String) (refName : Option String) :
    List String :=
  ["docker", "run", "--rm",
   "-v", bindDir ++ ":/work",
   image,
   "run",
   "-i", "/work/" ++ ipName,
   "-o", "/work/" ++ opName,
   "-f"]
  ++ (match refName with
      | some n => ["-r", "/work/" ++ n]
      | none => [])

/-- The command-construction phase of `DockerGenieRunner.compress`
(everything before `_run_command`): `_resolve_paths` on
`(input_file, output_file, reference)`, the indexing
`paths[0], paths[1]` and `paths[2] if reference else None`, then the
argument-vector construction.  (`output_path.parent.mkdir` is a
filesystem side effect with no bearing on the result.) -/
def compress (res : String → AbsPath) (input output : String)
    (reference : Option String) (lowLatency : Bool) : Except PyError (List String) :=
  match resolvePaths res [some input, some output, reference] with
  | .error e => .error e
  | .ok (paths, bindDir) =>
    match paths[0]?, paths[1]? with
    | some ip, some op =>
      if pyTruthy reference then
        match paths[2]? with
        | some rp => .ok (compressCmdList bindDir ip.name op.name (some rp.name) lowLatency)
        | none => .error .indexError
      else .ok (compressCmdList bindDir ip.name op.name none lowLatency)
    | _, _ => .error .indexError

/-- The command-construction phase of `DockerGenieRunner.decompress`,
mirroring `compress` without the quality-value and low-latency flags. -/
def decompress (res : String → AbsPath) (input output : String)
    (reference : Option String) : Except PyError (List String) :=
  match resolvePaths res [some input, some output, reference] with
  | .error e => .error e
  | .ok (paths, bindDir) =>
    match paths[0]?, paths[1]? with
    | some ip, some op =>
      if pyTruthy reference then
        match paths[2]? with
        | some rp => .ok (decompressCmdList bindDir ip.name op.name (some rp.name))
        | none => .error .indexError
      else .ok (decompressCmdList bindDir ip.name op.name none)
    | _, _ => .error .indexError

/-- `_run_command` applied to the outcome of the one subprocess call:
`check=True` turns a non-zero exit status into `CalledProcessError`,
caught and re-raised as `RuntimeError(f"Genie Docker failed:\n{stderr}")`;
a zero exit status still fails with the same `RuntimeError` when the
captured stderr is truthy and contains `"ERROR"`; otherwise the captured
stdout is returned. -/
def runCommand (r : ProcResult) : Except PyError String :=
  if r.exitCode ≠ 0 then
    .error (.runtimeError (failMsg r.stderr))
  else if r.stderr ≠ "" ∧ strContains r.stderr "ERROR" = true then
    .error (.runtimeError (failMsg r.stderr))
  else
    .ok r.stdout

/-- `DockerGenieRunner.compress` end to end: construct the command, then
invoke the external process on it (at most once) through `_run_command`.
The second component logs the invocations actually issued. -/
def compressRun (res : String → AbsPath) (proc : List String → ProcResult)
    (input output : String) (reference : Option String) (lowLatency : Bool) :
    Except PyError String × List (List String) :=
  match compress res input output reference lowLatency with
  | .error e => (.error e, [])
  | .ok cmd => (runCommand (proc cmd), [cmd])

/-- `DockerGenieRunner.decompress` end to end, with the invocation log. -/
def decompressRun (res : String → AbsPath) (proc : List String → ProcResult)
    (input output : String) (reference : Option String) :
    Except PyError String × List (List String) :=
  match decompress res input output reference with
  | .error e => (.error e, [])
  | .ok cmd => (runCommand (proc cmd), [cmd])

end DockerGenieRunner

namespace Api

/-- The two backend classes `_get_runner` can instantiate. -/
inductive Runner where
  | native
  | docker
deriving DecidableEq, Repr

/-- `DEFAULT_MODE = "docker"` in `api.py`: the default value of the
`mode` keyword of both public functions. -/
def DEFAULT_MODE : String := "docker"

/-- The message of the `ValueError` raised by `_get_runner`:
`f"Unknown mode '{mode}'. Must be 'native' or 'docker'."`. -/
def unknownModeMsg (mode : String) : String :=
  "Unknown mode '" ++ mode ++ "'. Must be 'native' or 'docker'."

/-- `_get_runner`: exact, case-sensitive match on the mode string;
anything other than `"native"` and `"docker"` raises the `ValueError`. -/
def getRunner (mode : String) : Except PyError Runner :=
  if mode = "native" then .ok .native
  else if mode = "docker" then .ok .docker
  else .error (.valueError (unknownModeMsg mode))

/-- One call to a backend's `compress` method, as the public `compress`
issues it: which backend, and the four arguments passed through. -/
structure CompressCall where
  backend : Runner
  input : String
  output : String
  reference : Option String
  lowLatency : Bool
deriving DecidableEq, Repr

/-- One call to a backend's `decompress` method, as the public
`decompress` issues it. -/
structure DecompressCall where
  backend : Runner
  input : String
  output : String
  reference : Option String
deriving DecidableEq, Repr

/-- A backend's `compress` method, abstracted as a function from the
four arguments to its outcome (`NativeGenieRunner.compress` is not part
of the repository's sources, so both backends stay abstract here). -/
def CompressFn : Type :=
  String → String → Option String → Bool → Except PyError String

/-- A backend's `decompress` method, abstracted likewise. -/
def DecompressFn : Type :=
  String → String → Option String → Except PyError String

/-- Public `compress`: `runner = _get_runner(mode)`, then
`runner.compress(input_path, output_path, reference=reference_path,
low_latency=low_latency)`.  The second component logs the backend calls
issued (exactly one on a valid mode, none otherwise). -/
def compress (nativeFn dockerFn : CompressFn)
    (input output : String) (reference : Option String) (mode : String)
    (lowLatency : Bool) : Except PyError String × List CompressCall :=
  match getRunner mode with
  | .error e => (.error e, [])
  | .ok .native =>
      (nativeFn input output reference lowLatency,
       [⟨.native, input, output, reference, lowLatency⟩])
  | .ok .docker =>
      (dockerFn input output reference lowLatency,
       [⟨.docker, input, output, reference, lowLatency⟩])

/-- Public `decompress`: `runner = _get_runner(mode)`, then
`runner.decompress(input_path, output_path, reference=reference_path)`,
with the call log. -/
def decompress (nativeFn dockerFn : DecompressFn)
    (input output : String) (reference : Option String) (mode : String) :
    Except PyError String × List DecompressCall :=
  match getRunner mode with
  | .error e => (.error e, [])
  | .ok .native =>
      (nativeFn input output reference, [⟨.native, input, output, reference⟩])
  | .ok .docker =>
      (dockerFn input output reference, [⟨.docker, input, output, reference⟩])

end Api

/-! Concrete instances used by the witness theorems: a toy path
resolver (each string `"d/n"` resolves to parent `"/d"` and basename
`n`), a resolver sending every path to its own parent directory, and a
trivial external process. -/

/-- A concrete resolver for witnesses: `"d/n"` resolves to the absolute
path with parent `"/d"` and basename `n`. -/
def demoResolve (s : String) : GenieWrapper.AbsPath :=
  if s = "a/in.fastq" then ⟨"/a", "in.fastq"⟩
  else if s = "a/out.mgb" then ⟨"/a", "out.mgb"⟩
  else if s = "a/ref.fasta" then ⟨"/a", "ref.fasta"⟩
  else if s = "b/out.mgb" then ⟨"/b", "out.mgb"⟩
  else ⟨"/demo", s⟩

/-- A concrete external process for witnesses: exits 0 with empty
streams whatever the command. -/
def demoProc (_ : List String) : GenieWrapper.ProcResult :=
  ⟨0, "", ""⟩

end GenieWrapper

deriving instance DecidableEq for Except

namespace GenieWrapper

/-! ### Shared helper lemmas -/

lemma append_ne_of_suf (a b c : String) (h : ¬ b.data <:+ c.data) : a ++ b ≠ c := by
  intro he
  apply h
  rw [← he, String.data_append]
  exact List.suffix_append a.data b.data

lemma ne_append_suf (c a b : String) (h : ¬ b.data <:+ c.data) : c ≠ a ++ b :=
  fun he => append_ne_of_suf a b c h he.symm

lemma append_ne_of_pre (a b c : String) (h : ¬ a.data <+: c.data) : a ++ b ≠ c := by
  intro he
  apply h
  rw [← he, String.data_append]
  exact List.prefix_append a.data b.data

lemma ne_append_pre (c a b : String) (h : ¬ a.data <+: c.data) : c ≠ a ++ b :=
  fun he => append_ne_of_pre a b c h he.symm

lemma infix_append_left {l l₁ l₂ : List Char} (h : l <:+: l₁) : l <:+: l₁ ++ l₂ :=
  h.trans (List.prefix_append l₁ l₂).isInfix

lemma infix_append_right {l l₁ l₂ : List Char} (h : l <:+: l₂) : l <:+: l₁ ++ l₂ :=
  h.trans (List.suffix_append l₁ l₂).isInfix

lemma dedup_of_all_eq {α} [DecidableEq α] (d : α) :
    ∀ (l : List α), l ≠ [] → (∀ x ∈ l, x = d) → l.dedup = [d] := by
  intro l
  induction l with
  | nil => intro h _; exact absurd rfl h
  | cons a t ih =>
    intro _ hall
    have ha : a = d := hall a (List.mem_cons_self a t)
    cases t with
    | nil => simp [ha]
    | cons b t2 =>
      have hb : b = d := hall b (by simp)
      have hmem : a ∈ b :: t2 := by rw [ha, ← hb]; exact List.mem_cons_self b t2
      rw [List.dedup_cons_of_mem hmem]
      exact ih (by simp) fun x hx => hall x (List.mem_cons_of_mem a hx)

lemma dedup_eq_singleton {α} [DecidableEq α] {l : List α} {d : α} :
    l.dedup = [d] ↔ l ≠ [] ∧ ∀ x ∈ l, x = d := by
  constructor
  · intro h
    refine ⟨?_, ?_⟩
    · intro hl
      subst hl
      simp at h
    · intro x hx
      have hm : x ∈ l.dedup := List.mem_dedup.mpr hx
      rw [h] at hm
      simpa using hm
  · rintro ⟨hne, hall⟩
    exact dedup_of_all_eq d l hne hall

namespace DockerGenieRunner

lemma resolvedList_cons_truthy (res : String → AbsPath) {s : String} (hs : s ≠ "")
    (ps : List (Option String)) :
    resolvedList res (some s :: ps) = res s :: resolvedList res ps := by
  simp [resolvedList, List.filterMap_cons, hs]

lemma resolvedList_cons_empty (res : String → AbsPath) (ps : List (Option String)) :
    resolvedList res (some "" :: ps) = resolvedList res ps := by
  simp [resolvedList, List.filterMap_cons]

lemma resolvedList_cons_none (res : String → AbsPath) (ps : List (Option String)) :
    resolvedList res (none :: ps) = resolvedList res ps := by
  simp [resolvedList, List.filterMap_cons]

lemma resolvedList_nil (res : String → AbsPath) : resolvedList res [] = [] := rfl

lemma resolvePaths_ok {res : String → AbsPath} {ps : List (Option String)}
    {l : List AbsPath} {d : String}
    (h : resolvePaths res ps = .ok (l, d)) :
    l = resolvedList res ps ∧ l ≠ [] ∧ ∀ p ∈ l, p.parent = d := by
  unfold resolvePaths at h
  split at h
  · rename_i d' heq
    obtain ⟨rfl, rfl⟩ : resolvedList res ps = l ∧ d' = d := by
      cases h
      exact ⟨rfl, rfl⟩
    obtain ⟨hne, hall⟩ := dedup_eq_singleton.mp heq
    refine ⟨rfl, ?_, ?_⟩
    · intro hl
      rw [hl] at hne
      exact hne (by simp)
    · intro p hp
      exact hall _ (List.mem_map_of_mem _ hp)
  · cases h

lemma resolvePaths_error {res : String → AbsPath} {ps : List (Option String)}
    (h : ∀ d, ((resolvedList res ps).map AbsPath.parent).dedup ≠ [d]) :
    resolvePaths res ps = .error (.valueError sameDirMsg) := by
  unfold resolvePaths
  split
  · rename_i d heq
    exact absurd heq (h d)
  · rfl

lemma compress_ok {res : String → AbsPath} {i o : String} {ref : Option String}
    {ll : Bool} {c : List String}
    (h : compress res i o ref ll = .ok c) :
    i ≠ "" ∧ o ≠ "" ∧ (res o).parent = (res i).parent ∧
    ((pyTruthy ref = false ∧
        c = compressCmdList (res i).parent (res i).name (res o).name none ll) ∨
     (∃ r, ref = some r ∧ r ≠ "" ∧ (res r).parent = (res i).parent ∧
        c = compressCmdList (res i).parent (res i).name (res o).name
              (some (res r).name) ll)) := by
  unfold compress at h
  cases hrp : resolvePaths res [some i, some o, ref] with
  | error e => rw [hrp] at h; simp [resolvedList] at h
  | ok pd =>
    obtain ⟨paths, bd⟩ := pd
    rw [hrp] at h
    obtain ⟨hpaths, hne, hpar⟩ := resolvePaths_ok hrp
    by_cases hi : i = ""
    · subst hi
      rw [resolvedList_cons_empty] at hpaths
      rcases ref with _ | r
      · by_cases ho : o = ""
        · subst ho
          rw [resolvedList_cons_empty, resolvedList_cons_none] at hpaths
          exact absurd hpaths hne
        · rw [resolvedList_cons_truthy res ho, resolvedList_cons_none] at hpaths
          subst hpaths
          simp [resolvedList] at h
      · by_cases hr : r = ""
        · subst hr
          by_cases ho : o = ""
          · subst ho
            rw [resolvedList_cons_empty, resolvedList_cons_empty] at hpaths
            exact absurd hpaths hne
          · rw [resolvedList_cons_truthy res ho, resolvedList_cons_empty] at hpaths
            subst hpaths
            simp [resolvedList, pyTruthy] at h
        · by_cases ho : o = ""
          · subst ho
            rw [resolvedList_cons_empty, resolvedList_cons_truthy res hr] at hpaths
            subst hpaths
            simp [resolvedList] at h
          · rw [resolvedList_cons_truthy res ho, resolvedList_cons_truthy res hr]
              at hpaths
            subst hpaths
            simp [resolvedList, pyTruthy, hr] at h
    · rw [resolvedList_cons_truthy res hi] at hpaths
      by_cases ho : o = ""
      · subst ho
        rw [resolvedList_cons_empty] at hpaths
        rcases ref with _ | r
        · rw [resolvedList_cons_none] at hpaths
          subst hpaths
          simp [resolvedList] at h
        · by_cases hr : r = ""
          · subst hr
            rw [resolvedList_cons_empty] at hpaths
            subst hpaths
            simp [resolvedList] at h
          · rw [resolvedList_cons_truthy res hr] at hpaths
            subst hpaths
            simp [resolvedList, pyTruthy, hr] at h
      · rw [resolvedList_cons_truthy res ho] at hpaths
        refine ⟨hi, ho, ?_⟩
        rcases ref with _ | r
        · rw [resolvedList_cons_none] at hpaths
          subst hpaths
          have hbi : (res i).parent = bd := hpar _ (by simp)
          have hbo : (res o).parent = bd := hpar _ (by simp)
          simp [resolvedList, pyTruthy] at h
          refine ⟨hbo.trans hbi.symm, Or.inl ⟨rfl, ?_⟩⟩
          rw [← h, hbi]
        · by_cases hr : r = ""
          · subst hr
            rw [resolvedList_cons_empty] at hpaths
            subst hpaths
            have hbi : (res i).parent = bd := hpar _ (by simp)
            have hbo : (res o).parent = bd := hpar _ (by simp)
            simp [resolvedList, pyTruthy] at h
            refine ⟨hbo.trans hbi.symm, Or.inl ⟨rfl, ?_⟩⟩
            rw [← h, hbi]
          · rw [resolvedList_cons_truthy res hr] at hpaths
            subst hpaths
            have hbi : (res i).parent = bd := hpar _ (by simp)
            have hbo : (res o).parent = bd := hpar _ (by simp)
            have hbr : (res r).parent = bd := hpar _ (by simp)
            simp [resolvedList, pyTruthy, hr] at h
            refine ⟨hbo.trans hbi.symm,
              Or.inr ⟨r, rfl, hr, hbr.trans hbi.symm, ?_⟩⟩
            rw [← h, hbi]

lemma decompress_ok {res : String → AbsPath} {i o : String} {ref : Option String}
    {c : List String}
    (h : decompress res i o ref = .ok c) :
    i ≠ "" ∧ o ≠ "" ∧ (res o).parent = (res i).parent ∧
    ((pyTruthy ref = false ∧
        c = decompressCmdList (res i).parent (res i).name (res o).name none) ∨
     (∃ r, ref = some r ∧ r ≠ "" ∧ (res r).parent = (res i).parent ∧
        c = decompressCmdList (res i).parent (res i).name (res o).name
              (some (res r).name))) := by
  unfold decompress at h
  cases hrp : resolvePaths res [some i, some o, ref] with
  | error e => rw [hrp] at h; simp [resolvedList] at h
  | ok pd =>
    obtain ⟨paths, bd⟩ := pd
    rw [hrp] at h
    obtain ⟨hpaths, hne, hpar⟩ := resolvePaths_ok hrp
    by_cases hi : i = ""
    · subst hi
      rw [resolvedList_cons_empty] at hpaths
      rcases ref with _ | r
      · by_cases ho : o = ""
        · subst ho
          rw [resolvedList_cons_empty, resolvedList_cons_none] at hpaths
          exact absurd hpaths hne
        · rw [resolvedList_cons_truthy res ho, resolvedList_cons_none] at hpaths
          subst hpaths
          simp [resolvedList] at h
      · by_cases hr : r = ""
        · subst hr
          by_cases ho : o = ""
          · subst ho
            rw [resolvedList_cons_empty, resolvedList_cons_empty] at hpaths
            exact absurd hpaths hne
          · rw [resolvedList_cons_truthy res ho, resolvedList_cons_empty] at hpaths
            subst hpaths
            simp [resolvedList, pyTruthy] at h
        · by_cases ho : o = ""
          · subst ho
            rw [resolvedList_cons_empty, resolvedList_cons_truthy res hr] at hpaths
            subst hpaths
            simp [resolvedList] at h
          · rw [resolvedList_cons_truthy res ho, resolvedList_cons_truthy res hr]
              at hpaths
            subst hpaths
            simp [resolvedList, pyTruthy, hr] at h
    · rw [resolvedList_cons_truthy res hi] at hpaths
      by_cases ho : o = ""
      · subst ho
        rw [resolvedList_cons_empty] at hpaths
        rcases ref with _ | r
        · rw [resolvedList_cons_none] at hpaths
          subst hpaths
          simp [resolvedList] at h
        · by_cases hr : r = ""
          · subst hr
            rw [resolvedList_cons_empty] at hpaths
            subst hpaths
            simp [resolvedList] at h
          · rw [resolvedList_cons_truthy res hr] at hpaths
            subst hpaths
            simp [resolvedList, pyTruthy, hr] at h
      · rw [resolvedList_cons_truthy res ho] at hpaths
        refine ⟨hi, ho, ?_⟩
        rcases ref with _ | r
        · rw [resolvedList_cons_none] at hpaths
          subst hpaths
          have hbi : (res i).parent = bd := hpar _ (by simp)
          have hbo : (res o).parent = bd := hpar _ (by simp)
          simp [resolvedList, pyTruthy] at h
          refine ⟨hbo.trans hbi.symm, Or.inl ⟨rfl, ?_⟩⟩
          rw [← h, hbi]
        · by_cases hr : r = ""
          · subst hr
            rw [resolvedList_cons_empty] at hpaths
            subst hpaths
            have hbi : (res i).parent = bd := hpar _ (by simp)
            have hbo : (res o).parent = bd := hpar _ (by simp)
            simp [resolvedList, pyTruthy] at h
            refine ⟨hbo.trans hbi.symm, Or.inl ⟨rfl, ?_⟩⟩
            rw [← h, hbi]
          · rw [resolvedList_cons_truthy res hr] at hpaths
            subst hpaths
            have hbi : (res i).parent = bd := hpar _ (by simp)
            have hbo : (res o).parent = bd := hpar _ (by simp)
            have hbr : (res r).parent = bd := hpar _ (by simp)
            simp [resolvedList, pyTruthy, hr] at h
            refine ⟨hbo.trans hbi.symm,
              Or.inr ⟨r, rfl, hr, hbr.trans hbi.symm, ?_⟩⟩
            rw [← h, hbi]

lemma qv_none_infix_compressCmdList (bd ni no : String) (rn : Option String) (ll : Bool) :
    ["--qv", "none"] <:+: compressCmdList bd ni no rn ll :=
  ⟨["docker", "run", "--rm", "-v", bd ++ ":/work", image, "run",
    "-i", "/work/" ++ ni, "-o", "/work/" ++ no],
   ["-f"] ++ (if ll then ["--low-latency"] else [])
     ++ (match rn with | some n => ["-r", "/work/" ++ n] | none => []),
   by simp [compressCmdList]⟩

lemma f_mem_compressCmdList (bd ni no : String) (rn : Option String) (ll : Bool) :
    "-f" ∈ compressCmdList bd ni no rn ll := by
  rcases rn with _ | n <;> cases ll <;> simp [compressCmdList]

lemma f_mem_decompressCmdList (bd ni no : String) (rn : Option String) :
    "-f" ∈ decompressCmdList bd ni no rn := by
  rcases rn with _ | n <;> simp [decompressCmdList]

lemma qv_not_mem_decompressCmdList (bd ni no : String) (rn : Option String) :
    "--qv" ∉ decompressCmdList bd ni no rn := by
  rcases rn with _ | n
  · simp [decompressCmdList, image]
    exact ⟨ne_append_suf _ _ _ (by decide), ne_append_pre _ _ _ (by decide),
      ne_append_pre _ _ _ (by decide)⟩
  · simp [decompressCmdList, image]
    exact ⟨ne_append_suf _ _ _ (by decide), ne_append_pre _ _ _ (by decide),
      ne_append_pre _ _ _ (by decide), ne_append_pre _ _ _ (by decide)⟩

lemma lowlat_mem_compressCmdList (bd ni no : String) (rn : Option String) :
    "--low-latency" ∈ compressCmdList bd ni no rn true := by
  rcases rn with _ | n <;> simp [compressCmdList]

lemma lowlat_not_mem_compressCmdList (bd ni no : String) (rn : Option String) :
    "--low-latency" ∉ compressCmdList bd ni no rn false := by
  rcases rn with _ | n
  · simp [compressCmdList, image]
    exact ⟨ne_append_suf _ _ _ (by decide), ne_append_pre _ _ _ (by decide),
      ne_append_pre _ _ _ (by decide)⟩
  · simp [compressCmdList, image]
    exact ⟨ne_append_suf _ _ _ (by decide), ne_append_pre _ _ _ (by decide),
      ne_append_pre _ _ _ (by decide), ne_append_pre _ _ _ (by decide)⟩

lemma r_tail_infix_compressCmdList (bd ni no n : String) (ll : Bool) :
    ["-r", "/work/" ++ n] <:+: compressCmdList bd ni no (some n) ll :=
  ⟨["docker", "run", "--rm", "-v", bd ++ ":/work", image, "run",
    "-i", "/work/" ++ ni, "-o", "/work/" ++ no, "--qv", "none", "-f"]
     ++ (if ll then ["--low-latency"] else []),
   [],
   by cases ll <;> simp [compressCmdList]⟩

lemma r_tail_infix_decompressCmdList (bd ni no n : String) :
    ["-r", "/work/" ++ n] <:+: decompressCmdList bd ni no (some n) :=
  ⟨["docker", "run", "--rm", "-v", bd ++ ":/work", image, "run",
    "-i", "/work/" ++ ni, "-o", "/work/" ++ no, "-f"],
   [],
   by simp [decompressCmdList]⟩

lemma r_not_mem_compressCmdList (bd ni no : String) (ll : Bool) :
    "-r" ∉ compressCmdList bd ni no none ll := by
  cases ll <;> simp [compressCmdList, image] <;>
    exact ⟨ne_append_suf _ _ _ (by decide), ne_append_pre _ _ _ (by decide),
      ne_append_pre _ _ _ (by decide)⟩

lemma r_not_mem_decompressCmdList (bd ni no : String) :
    "-r" ∉ decompressCmdList bd ni no none := by
  simp [decompressCmdList, image]
  exact ⟨ne_append_suf _ _ _ (by decide), ne_append_pre _ _ _ (by decide),
    ne_append_pre _ _ _ (by decide)⟩

lemma v_bind_infix_compressCmdList (bd ni no : String) (rn : Option String) (ll : Bool) :
    ["-v", bd ++ ":/work"] <:+: compressCmdList bd ni no rn ll :=
  ⟨["docker", "run", "--rm"],
   [image, "run", "-i", "/work/" ++ ni, "-o", "/work/" ++ no, "--qv", "none", "-f"]
     ++ (if ll then ["--low-latency"] else [])
     ++ (match rn with | some n => ["-r", "/work/" ++ n] | none => []),
   by simp [compressCmdList]⟩

lemma v_bind_infix_decompressCmdList (bd ni no : String) (rn : Option String) :
    ["-v", bd ++ ":/work"] <:+: decompressCmdList bd ni no rn :=
  ⟨["docker", "run", "--rm"],
   [image, "run", "-i", "/work/" ++ ni, "-o", "/work/" ++ no, "-f"]
     ++ (match rn with | some n => ["-r", "/work/" ++ n] | none => []),
   by simp [decompressCmdList]⟩

lemma i_infix_compressCmdList (bd ni no : String) (rn : Option String) (ll : Bool) :
    ["-i", "/work/" ++ ni] <:+: compressCmdList bd ni no rn ll :=
  ⟨["docker", "run", "--rm", "-v", bd ++ ":/work", image, "run"],
   ["-o", "/work/" ++ no, "--qv", "none", "-f"]
     ++ (if ll then ["--low-latency"] else [])
     ++ (match rn with | some n => ["-r", "/work/" ++ n] | none => []),
   by simp [compressCmdList]⟩

lemma i_infix_decompressCmdList (bd ni no : String) (rn : Option String) :
    ["-i", "/work/" ++ ni] <:+: decompressCmdList bd ni no rn :=
  ⟨["docker", "run", "--rm", "-v", bd ++ ":/work", image, "run"],
   ["-o", "/work/" ++ no, "-f"]
     ++ (match rn with | some n => ["-r", "/work/" ++ n] | none => []),
   by simp [decompressCmdList]⟩

lemma o_infix_compressCmdList (bd ni no : String) (rn : Option String) (ll : Bool) :
    ["-o", "/work/" ++ no] <:+: compressCmdList bd ni no rn ll :=
  ⟨["docker", "run", "--rm", "-v", bd ++ ":/work", image, "run", "-i", "/work/" ++ ni],
   ["--qv", "none", "-f"]
     ++ (if ll then ["--low-latency"] else [])
     ++ (match rn with | some n => ["-r", "/work/" ++ n] | none => []),
   by simp [compressCmdList]⟩

lemma o_infix_decompressCmdList (bd ni no : String) (rn : Option String) :
    ["-o", "/work/" ++ no] <:+: decompressCmdList bd ni no rn :=
  ⟨["docker", "run", "--rm", "-v", bd ++ ":/work", image, "run", "-i", "/work/" ++ ni],
   ["-f"] ++ (match rn with | some n => ["-r", "/work/" ++ n] | none => []),
   by simp [decompressCmdList]⟩

lemma count_v_compressCmdList (bd ni no : String) (rn : Option String) (ll : Bool) :
    (compressCmdList bd ni no rn ll).count "-v" = 1 := by
  have h1 : ¬ ("-v" : String) = bd ++ ":/work" := ne_append_suf _ _ _ (by decide)
  have h2 : ¬ ("-v" : String) = "/work/" ++ ni := ne_append_pre _ _ _ (by decide)
  have h3 : ¬ ("-v" : String) = "/work/" ++ no := ne_append_pre _ _ _ (by decide)
  rcases rn with _ | n
  · cases ll <;>
      simp [compressCmdList, image, List.count_cons, List.count_append, h1, h2, h3]
  · have h4 : ¬ ("-v" : String) = "/work/" ++ n := ne_append_pre _ _ _ (by decide)
    cases ll <;>
      simp [compressCmdList, image, List.count_cons, List.count_append, h1, h2, h3, h4]

lemma count_v_decompressCmdList (bd ni no : String) (rn : Option String) :
    (decompressCmdList bd ni no rn).count "-v" = 1 := by
  have h1 : ¬ ("-v" : String) = bd ++ ":/work" := ne_append_suf _ _ _ (by decide)
  have h2 : ¬ ("-v" : String) = "/work/" ++ ni := ne_append_pre _ _ _ (by decide)
  have h3 : ¬ ("-v" : String) = "/work/" ++ no := ne_append_pre _ _ _ (by decide)
  rcases rn with _ | n
  · simp [decompressCmdList, image, List.count_cons, List.count_append, h1, h2, h3]
  · have h4 : ¬ ("-v" : String) = "/work/" ++ n := ne_append_pre _ _ _ (by decide)
    simp [decompressCmdList, image, List.count_cons, List.count_append, h1, h2, h3, h4]

lemma compress_empty_ref (res : String → AbsPath) (i o : String) (ll : Bool) :
    compress res i o (some "") ll = compress res i o none ll := by
  have hrl : resolvedList res [some i, some o, some ""] =
      resolvedList res [some i, some o, none] := by
    show List.filterMap _ ([some i, some o] ++ [some ""]) =
      List.filterMap _ ([some i, some o] ++ [none])
    rw [List.filterMap_append, List.filterMap_append]
    rfl
  have hpt : pyTruthy (some "") = false := rfl
  have hpn : pyTruthy none = false := rfl
  unfold compress resolvePaths
  rw [hrl, hpt, hpn]

lemma decompress_empty_ref (res : String → AbsPath) (i o : String) :
    decompress res i o (some "") = decompress res i o none := by
  have hrl : resolvedList res [some i, some o, some ""] =
      resolvedList res [some i, some o, none] := by
    show List.filterMap _ ([some i, some o] ++ [some ""]) =
      List.filterMap _ ([some i, some o] ++ [none])
    rw [List.filterMap_append, List.filterMap_append]
    rfl
  have hpt : pyTruthy (some "") = false := rfl
  have hpn : pyTruthy none = false := rfl
  unfold decompress resolvePaths
  rw [hrl, hpt, hpn]

/-! ### Claim theorems -/

/-- C1: `_run_command` raises the `RuntimeError` carrying the captured
standard-error text if and only if the exit status is non-zero or the
captured stderr contains the substring `"ERROR"` (so exit status 0 with
`"ERROR"` in stderr is still a failure); otherwise it returns the
captured standard-output text. -/
theorem runCommand_failure_policy (r : ProcResult) :
    (runCommand r = .error (.runtimeError (failMsg r.stderr)) ↔
      (r.exitCode ≠ 0 ∨ strContains r.stderr "ERROR" = true)) ∧
    (runCommand r = .ok r.stdout ↔
      ¬(r.exitCode ≠ 0 ∨ strContains r.stderr "ERROR" = true)) := by
  have hCE : strContains r.stderr "ERROR" = true → r.stderr ≠ "" := by
    intro h hs
    rw [hs] at h
    exact absurd h (by decide)
  by_cases h0 : r.exitCode = 0
  · by_cases hC : strContains r.stderr "ERROR" = true
    · have hne := hCE hC
      simp [runCommand, h0, hC, hne]
    · simp [runCommand, h0, hC]
  · simp [runCommand, h0]

/-- C2: when the resolved forms of the truthy provided paths do not all
share the input's parent directory, both containerized `compress` and
`decompress` fail with the path-layout `ValueError`, and the external
process is never invoked (the invocation log is empty). -/
theorem path_layout_error_before_invocation
    (res : String → AbsPath) (proc : List String → ProcResult)
    (i o : String) (ref : Option String) (ll : Bool)
    (hi : i ≠ "")
    (hshare : ¬ ∀ p ∈ resolvedList res [some i, some o, ref],
        p.parent = (res i).parent) :
    compressRun res proc i o ref ll =
      (.error (.valueError sameDirMsg), []) ∧
    decompressRun res proc i o ref =
      (.error (.valueError sameDirMsg), []) := by
  have herr : resolvePaths res [some i, some o, ref] =
      .error (.valueError sameDirMsg) := by
    apply resolvePaths_error
    intro d hd
    apply hshare
    obtain ⟨-, hall⟩ := dedup_eq_singleton.mp hd
    have hmem : res i ∈ resolvedList res [some i, some o, ref] := by
      rw [resolvedList_cons_truthy res hi]
      exact List.mem_cons_self _ _
    have hid : (res i).parent = d := hall _ (List.mem_map_of_mem _ hmem)
    intro p hp
    rw [hall _ (List.mem_map_of_mem _ hp), hid]
  constructor <;> simp [compressRun, decompressRun, compress, decompress, herr]

/-- C2 witness: input `a/in.fastq` and output `b/out.mgb` resolve to the
distinct parents `/a` and `/b`, so both operations fail with the
path-layout error and no invocation is issued. -/
theorem path_layout_error_before_invocation_witness :
    compressRun demoResolve demoProc "a/in.fastq" "b/out.mgb" none false =
      (.error (.valueError sameDirMsg), []) ∧
    decompressRun demoResolve demoProc "a/in.fastq" "b/out.mgb" none =
      (.error (.valueError sameDirMsg), []) :=
  path_layout_error_before_invocation demoResolve demoProc
    "a/in.fastq" "b/out.mgb" none false (by decide) (by decide)

/-- C5: every constructed compression command contains the fixed
`--qv none` pair and the `-f` flag, whatever the arguments; every
constructed decompression command contains `-f` and never contains
`--qv`. -/
theorem fixed_flags_policy (res : String → AbsPath) (i o : String)
    (ref : Option String) (ll : Bool) (c d : List String)
    (hc : compress res i o ref ll = .ok c)
    (hd : decompress res i o ref = .ok d) :
    ["--qv", "none"] <:+: c ∧ "-f" ∈ c ∧ "-f" ∈ d ∧ "--qv" ∉ d := by
  obtain ⟨-, -, -, hcase⟩ := compress_ok hc
  obtain ⟨-, -, -, hdcase⟩ := decompress_ok hd
  rcases hcase with ⟨-, rfl⟩ | ⟨r, -, -, -, rfl⟩ <;>
  rcases hdcase with ⟨-, rfl⟩ | ⟨r2, -, -, -, rfl⟩ <;>
    exact ⟨qv_none_infix_compressCmdList _ _ _ _ _,
      f_mem_compressCmdList _ _ _ _ _,
      f_mem_decompressCmdList _ _ _ _,
      qv_not_mem_decompressCmdList _ _ _ _⟩

/-- C5 witness: the flag policy at concrete inputs, with the two
constructed commands spelled out. -/
theorem fixed_flags_policy_witness :
    (["--qv", "none"] : List String) <:+:
      ["docker", "run", "--rm", "-v", "/a:/work", "muefab/genie:latest", "run",
       "-i", "/work/in.fastq", "-o", "/work/out.mgb", "--qv", "none", "-f",
       "--low-latency", "-r", "/work/ref.fasta"] ∧
    "-f" ∈
      ["docker", "run", "--rm", "-v", "/a:/work", "muefab/genie:latest", "run",
       "-i", "/work/in.fastq", "-o", "/work/out.mgb", "--qv", "none", "-f",
       "--low-latency", "-r", "/work/ref.fasta"] ∧
    "-f" ∈
      ["docker", "run", "--rm", "-v", "/a:/work", "muefab/genie:latest", "run",
       "-i", "/work/in.fastq", "-o", "/work/out.mgb", "-f", "-r", "/work/ref.fasta"] ∧
    "--qv" ∉
      ["docker", "run", "--rm", "-v", "/a:/work", "muefab/genie:latest", "run",
       "-i", "/work/in.fastq", "-o", "/work/out.mgb", "-f", "-r", "/work/ref.fasta"] :=
  fixed_flags_policy demoResolve "a/in.fastq" "a/out.mgb" (some "a/ref.fasta") true
    ["docker", "run", "--rm", "-v", "/a:/work", "muefab/genie:latest", "run",
     "-i", "/work/in.fastq", "-o", "/work/out.mgb", "--qv", "none", "-f",
     "--low-latency", "-r", "/work/ref.fasta"]
    ["docker", "run", "--rm", "-v", "/a:/work", "muefab/genie:latest", "run",
     "-i", "/work/in.fastq", "-o", "/work/out.mgb", "-f", "-r", "/work/ref.fasta"]
    (by decide) (by decide)

/-- C6: a constructed compression command contains `--low-latency` if
and only if `low_latency=True` was passed. -/
theorem low_latency_flag_iff (res : String → AbsPath) (i o : String)
    (ref : Option String) (ll : Bool) (c : List String)
    (hc : compress res i o ref ll = .ok c) :
    ("--low-latency" ∈ c ↔ ll = true) := by
  obtain ⟨-, -, -, hcase⟩ := compress_ok hc
  rcases hcase with ⟨-, rfl⟩ | ⟨r, -, -, -, rfl⟩ <;> cases ll <;>
    simp [lowlat_mem_compressCmdList, lowlat_not_mem_compressCmdList]

/-- C6 witness: with `low_latency=true` the flag is in the concrete
constructed command. -/
theorem low_latency_flag_iff_witness :
    ("--low-latency" ∈
      ["docker", "run", "--rm", "-v", "/a:/work", "muefab/genie:latest", "run",
       "-i", "/work/in.fastq", "-o", "/work/out.mgb", "--qv", "none", "-f",
       "--low-latency"] ↔ true = true) :=
  low_latency_flag_iff demoResolve "a/in.fastq" "a/out.mgb" none true
    ["docker", "run", "--rm", "-v", "/a:/work", "muefab/genie:latest", "run",
     "-i", "/work/in.fastq", "-o", "/work/out.mgb", "--qv", "none", "-f",
     "--low-latency"]
    (by decide)

/-- C7: a constructed compression or decompression command contains the
reference flag `-r` followed by `/work/<basename>` of the resolved
reference exactly when a (truthy) reference was supplied; without one,
`-r` does not occur anywhere in either command. -/
theorem reference_flag_iff (res : String → AbsPath) (i o : String)
    (ref : Option String) (ll : Bool) (c d : List String)
    (hc : compress res i o ref ll = .ok c)
    (hd : decompress res i o ref = .ok d) :
    (pyTruthy ref = true →
      ∃ r, ref = some r ∧ ["-r", "/work/" ++ (res r).name] <:+: c ∧
        ["-r", "/work/" ++ (res r).name] <:+: d) ∧
    (pyTruthy ref = false → "-r" ∉ c ∧ "-r" ∉ d) := by
  obtain ⟨-, -, -, hcase⟩ := compress_ok hc
  obtain ⟨-, -, -, hdcase⟩ := decompress_ok hd
  constructor
  · intro ht
    rcases hcase with ⟨hf, -⟩ | ⟨r, hr, -, -, rfl⟩
    · rw [hf] at ht
      cases ht
    · rcases hdcase with ⟨hf2, -⟩ | ⟨r2, hr2, -, -, rfl⟩
      · rw [hf2] at ht
        cases ht
      · rw [hr] at hr2
        obtain rfl : r = r2 := by injection hr2
        exact ⟨r, hr, r_tail_infix_compressCmdList _ _ _ _ _,
          r_tail_infix_decompressCmdList _ _ _ _⟩
  · intro hf
    rcases hcase with ⟨-, rfl⟩ | ⟨r, hr, hrne, -, -⟩
    · rcases hdcase with ⟨-, rfl⟩ | ⟨r2, hr2, hrne2, -, -⟩
      · exact ⟨r_not_mem_compressCmdList _ _ _ _,
          r_not_mem_decompressCmdList _ _ _⟩
      · rw [hr2] at hf
        simp [pyTruthy, hrne2] at hf
    · rw [hr] at hf
      simp [pyTruthy, hrne] at hf

/-- C7 witness: with reference `a/ref.fasta` supplied, both concrete
commands carry `-r /work/ref.fasta`. -/
theorem reference_flag_iff_witness :
    (pyTruthy (some "a/ref.fasta") = true →
      ∃ r, (some "a/ref.fasta" : Option String) = some r ∧
        ["-r", "/work/" ++ (demoResolve r).name] <:+:
          ["docker", "run", "--rm", "-v", "/a:/work", "muefab/genie:latest", "run",
           "-i", "/work/in.fastq", "-o", "/work/out.mgb", "--qv", "none", "-f",
           "-r", "/work/ref.fasta"] ∧
        ["-r", "/work/" ++ (demoResolve r).name] <:+:
          ["docker", "run", "--rm", "-v", "/a:/work", "muefab/genie:latest", "run",
           "-i", "/work/in.fastq", "-o", "/work/out.mgb", "-f",
           "-r", "/work/ref.fasta"]) ∧
    (pyTruthy (some "a/ref.fasta") = false →
      "-r" ∉
        ["docker", "run", "--rm", "-v", "/a:/work", "muefab/genie:latest", "run",
         "-i", "/work/in.fastq", "-o", "/work/out.mgb", "--qv", "none", "-f",
         "-r", "/work/ref.fasta"] ∧
      "-r" ∉
        ["docker", "run", "--rm", "-v", "/a:/work", "muefab/genie:latest", "run",
         "-i", "/work/in.fastq", "-o", "/work/out.mgb", "-f",
         "-r", "/work/ref.fasta"]) :=
  reference_flag_iff demoResolve "a/in.fastq" "a/out.mgb" (some "a/ref.fasta") false
    ["docker", "run", "--rm", "-v", "/a:/work", "muefab/genie:latest", "run",
     "-i", "/work/in.fastq", "-o", "/work/out.mgb", "--qv", "none", "-f",
     "-r", "/work/ref.fasta"]
    ["docker", "run", "--rm", "-v", "/a:/work", "muefab/genie:latest", "run",
     "-i", "/work/in.fastq", "-o", "/work/out.mgb", "-f",
     "-r", "/work/ref.fasta"]
    (by decide) (by decide)

/-- C8: every constructed command (compress or decompress) carries
exactly one `-v` bind-mount option, mapping the single shared parent
directory to `/work`; `-i`, `-o` and (when supplied) `-r` receive
`/work/<basename>` of the corresponding resolved path, and all resolved
parents equal the bind directory. -/
theorem single_bind_mount (res : String → AbsPath) (i o : String)
    (ref : Option String) (ll : Bool) (c d : List String)
    (hc : compress res i o ref ll = .ok c)
    (hd : decompress res i o ref = .ok d) :
    c.count "-v" = 1 ∧ d.count "-v" = 1 ∧
    ["-v", (res i).parent ++ ":/work"] <:+: c ∧
    ["-v", (res i).parent ++ ":/work"] <:+: d ∧
    (res o).parent = (res i).parent ∧
    ["-i", "/work/" ++ (res i).name] <:+: c ∧
    ["-o", "/work/" ++ (res o).name] <:+: c ∧
    ["-i", "/work/" ++ (res i).name] <:+: d ∧
    ["-o", "/work/" ++ (res o).name] <:+: d ∧
    (pyTruthy ref = true →
      ∃ r, ref = some r ∧ (res r).parent = (res i).parent ∧
        ["-r", "/work/" ++ (res r).name] <:+: c ∧
        ["-r", "/work/" ++ (res r).name] <:+: d) := by
  obtain ⟨-, -, hop, hcase⟩ := compress_ok hc
  obtain ⟨-, -, -, hdcase⟩ := decompress_ok hd
  rcases hcase with ⟨hf, rfl⟩ | ⟨r, hr, -, hrp, rfl⟩ <;>
  rcases hdcase with ⟨hf2, rfl⟩ | ⟨r2, hr2, -, hrp2, rfl⟩ <;>
    refine ⟨count_v_compressCmdList _ _ _ _ _, count_v_decompressCmdList _ _ _ _,
      v_bind_infix_compressCmdList _ _ _ _ _, v_bind_infix_decompressCmdList _ _ _ _,
      hop, i_infix_compressCmdList _ _ _ _ _, o_infix_compressCmdList _ _ _ _ _,
      i_infix_decompressCmdList _ _ _ _, o_infix_decompressCmdList _ _ _ _, ?_⟩ <;>
    intro ht
  · rw [hf] at ht
    cases ht
  · rw [hf] at ht
    cases ht
  · rw [hf2] at ht
    cases ht
  · rw [hr] at hr2
    obtain rfl : r = r2 := by injection hr2
    exact ⟨r, hr, hrp, r_tail_infix_compressCmdList _ _ _ _ _,
      r_tail_infix_decompressCmdList _ _ _ _⟩

/-- C8 witness: the bind-mount and in-container path layout at concrete
inputs with a reference supplied. -/
theorem single_bind_mount_witness :
    (["docker", "run", "--rm", "-v", "/a:/work", "muefab/genie:latest", "run",
      "-i", "/work/in.fastq", "-o", "/work/out.mgb", "--qv", "none", "-f",
      "-r", "/work/ref.fasta"] : List String).count "-v" = 1 ∧
    (["docker", "run", "--rm", "-v", "/a:/work", "muefab/genie:latest", "run",
      "-i", "/work/in.fastq", "-o", "/work/out.mgb", "-f",
      "-r", "/work/ref.fasta"] : List String).count "-v" = 1 ∧
    ["-v", (demoResolve "a/in.fastq").parent ++ ":/work"] <:+:
      ["docker", "run", "--rm", "-v", "/a:/work", "muefab/genie:latest", "run",
       "-i", "/work/in.fastq", "-o", "/work/out.mgb", "--qv", "none", "-f",
       "-r", "/work/ref.fasta"] ∧
    ["-v", (demoResolve "a/in.fastq").parent ++ ":/work"] <:+:
      ["docker", "run", "--rm", "-v", "/a:/work", "muefab/genie:latest", "run",
       "-i", "/work/in.fastq", "-o", "/work/out.mgb", "-f",
       "-r", "/work/ref.fasta"] ∧
    (demoResolve "a/out.mgb").parent = (demoResolve "a/in.fastq").parent ∧
    ["-i", "/work/" ++ (demoResolve "a/in.fastq").name] <:+:
      ["docker", "run", "--rm", "-v", "/a:/work", "muefab/genie:latest", "run",
       "-i", "/work/in.fastq", "-o", "/work/out.mgb", "--qv", "none", "-f",
       "-r", "/work/ref.fasta"] ∧
    ["-o", "/work/" ++ (demoResolve "a/out.mgb").name] <:+:
      ["docker", "run", "--rm", "-v", "/a:/work", "muefab/genie:latest", "run",
       "-i", "/work/in.fastq", "-o", "/work/out.mgb", "--qv", "none", "-f",
       "-r", "/work/ref.fasta"] ∧
    ["-i", "/work/" ++ (demoResolve "a/in.fastq").name] <:+:
      ["docker", "run", "--rm", "-v", "/a:/work", "muefab/genie:latest", "run",
       "-i", "/work/in.fastq", "-o", "/work/out.mgb", "-f",
       "-r", "/work/ref.fasta"] ∧
    ["-o", "/work/" ++ (demoResolve "a/out.mgb").name] <:+:
      ["docker", "run", "--rm", "-v", "/a:/work", "muefab/genie:latest", "run",
       "-i", "/work/in.fastq", "-o", "/work/out.mgb", "-f",
       "-r", "/work/ref.fasta"] ∧
    (pyTruthy (some "a/ref.fasta") = true →
      ∃ r, (some "a/ref.fasta" : Option String) = some r ∧
        (demoResolve r).parent = (demoResolve "a/in.fastq").parent ∧
        ["-r", "/work/" ++ (demoResolve r).name] <:+:
          ["docker", "run", "--rm", "-v", "/a:/work", "muefab/genie:latest", "run",
           "-i", "/work/in.fastq", "-o", "/work/out.mgb", "--qv", "none", "-f",
           "-r", "/work/ref.fasta"] ∧
        ["-r", "/work/" ++ (demoResolve r).name] <:+:
          ["docker", "run", "--rm", "-v", "/a:/work", "muefab/genie:latest", "run",
           "-i", "/work/in.fastq", "-o", "/work/out.mgb", "-f",
           "-r", "/work/ref.fasta"]) :=
  single_bind_mount demoResolve "a/in.fastq" "a/out.mgb" (some "a/ref.fasta") false
    ["docker", "run", "--rm", "-v", "/a:/work", "muefab/genie:latest", "run",
     "-i", "/work/in.fastq", "-o", "/work/out.mgb", "--qv", "none", "-f",
     "-r", "/work/ref.fasta"]
    ["docker", "run", "--rm", "-v", "/a:/work", "muefab/genie:latest", "run",
     "-i", "/work/in.fastq", "-o", "/work/out.mgb", "-f",
     "-r", "/work/ref.fasta"]
    (by decide) (by decide)

/-- C10: calling the containerized runner with `reference=""` behaves
exactly as calling it with `reference=None`: same constructed command,
same end-to-end result and invocation log, and no `-r` flag in a
command constructed from an empty reference. -/
theorem empty_reference_behaves_as_none :
    (∀ (res : String → AbsPath) (i o : String) (ll : Bool),
      compress res i o (some "") ll = compress res i o none ll) ∧
    (∀ (res : String → AbsPath) (i o : String),
      decompress res i o (some "") = decompress res i o none) ∧
    (∀ (res : String → AbsPath) (proc : List String → ProcResult)
        (i o : String) (ll : Bool),
      compressRun res proc i o (some "") ll = compressRun res proc i o none ll) ∧
    (∀ (res : String → AbsPath) (proc : List String → ProcResult) (i o : String),
      decompressRun res proc i o (some "") = decompressRun res proc i o none) ∧
    (∀ (res : String → AbsPath) (i o : String) (ll : Bool) (c : List String),
      compress res i o (some "") ll = .ok c → "-r" ∉ c) ∧
    (∀ (res : String → AbsPath) (i o : String) (c : List String),
      decompress res i o (some "") = .ok c → "-r" ∉ c) := by
  refine ⟨compress_empty_ref, decompress_empty_ref, ?_, ?_, ?_, ?_⟩
  · intro res proc i o ll
    unfold compressRun
    rw [compress_empty_ref]
  · intro res proc i o
    unfold decompressRun
    rw [decompress_empty_ref]
  · intro res i o ll c hc
    obtain ⟨-, -, -, hcase⟩ := compress_ok hc
    rcases hcase with ⟨-, rfl⟩ | ⟨r, hr, hrne, -, -⟩
    · exact r_not_mem_compressCmdList _ _ _ _
    · injection hr with hr2
      exact absurd hr2.symm hrne
  · intro res i o c hd
    obtain ⟨-, -, -, hdcase⟩ := decompress_ok hd
    rcases hdcase with ⟨-, rfl⟩ | ⟨r, hr, hrne, -, -⟩
    · exact r_not_mem_decompressCmdList _ _ _
    · injection hr with hr2
      exact absurd hr2.symm hrne

end DockerGenieRunner

/-- C3: for every mode string other than exactly `"native"` and
`"docker"`, `_get_runner` and both public functions raise the
`ValueError` whose message contains the offending mode verbatim and
names both valid options (and no backend is ever called). -/
theorem unknown_mode_rejected (m : String) (h1 : m ≠ "native") (h2 : m ≠ "docker") :
    Api.getRunner m = .error (.valueError (Api.unknownModeMsg m)) ∧
    (∀ (nf df : Api.CompressFn) (i o : String) (ref : Option String) (ll : Bool),
      Api.compress nf df i o ref m ll =
        (.error (.valueError (Api.unknownModeMsg m)), [])) ∧
    (∀ (nf df : Api.DecompressFn) (i o : String) (ref : Option String),
      Api.decompress nf df i o ref m =
        (.error (.valueError (Api.unknownModeMsg m)), [])) ∧
    m.data <:+: (Api.unknownModeMsg m).data ∧
    "native".data <:+: (Api.unknownModeMsg m).data ∧
    "docker".data <:+: (Api.unknownModeMsg m).data := by
  have hg : Api.getRunner m = .error (.valueError (Api.unknownModeMsg m)) := by
    simp [Api.getRunner, h1, h2]
  have hdata : (Api.unknownModeMsg m).data =
      ("Unknown mode '" ++ m).data ++ "'. Must be 'native' or 'docker'.".data := by
    rw [Api.unknownModeMsg, String.data_append]
  refine ⟨hg, ?_, ?_, ?_, ?_, ?_⟩
  · intro nf df i o ref ll
    simp [Api.compress, hg]
  · intro nf df i o ref
    simp [Api.decompress, hg]
  · rw [hdata]
    apply infix_append_left
    rw [String.data_append]
    exact (List.suffix_append _ _).isInfix
  · rw [hdata]
    exact infix_append_right (by decide)
  · rw [hdata]
    exact infix_append_right (by decide)

/-- C3 witness: the case-variant mode `"Native"` is rejected by the
selector and both public functions, with the message containing
`Native`, `native` and `docker`. -/
theorem unknown_mode_rejected_witness :
    Api.getRunner "Native" = .error (.valueError (Api.unknownModeMsg "Native")) ∧
    (∀ (nf df : Api.CompressFn) (i o : String) (ref : Option String) (ll : Bool),
      Api.compress nf df i o ref "Native" ll =
        (.error (.valueError (Api.unknownModeMsg "Native")), [])) ∧
    (∀ (nf df : Api.DecompressFn) (i o : String) (ref : Option String),
      Api.decompress nf df i o ref "Native" =
        (.error (.valueError (Api.unknownModeMsg "Native")), [])) ∧
    "Native".data <:+: (Api.unknownModeMsg "Native").data ∧
    "native".data <:+: (Api.unknownModeMsg "Native").data ∧
    "docker".data <:+: (Api.unknownModeMsg "Native").data :=
  unknown_mode_rejected "Native" (by decide) (by decide)

/-- C4: `compress("a/in.fastq", "a/out.mgb")` with `mode="native"`
issues exactly one backend call, to the native backend's compress with
`reference=None` and `low_latency=False`, and returns that backend's
output unchanged. -/
theorem api_compress_native_scenario (nf df : Api.CompressFn) :
    Api.compress nf df "a/in.fastq" "a/out.mgb" none "native" false =
      (nf "a/in.fastq" "a/out.mgb" none false,
       [⟨Api.Runner.native, "a/in.fastq", "a/out.mgb", none, false⟩]) := by
  simp [Api.compress, Api.getRunner]

/-- C9: with the mode argument left at its default (`DEFAULT_MODE`,
which is `"docker"`), both public functions select the containerized
backend and delegate the call to it. -/
theorem default_mode_is_docker :
    Api.DEFAULT_MODE = "docker" ∧
    (∀ (nf df : Api.CompressFn) (i o : String) (ref : Option String) (ll : Bool),
      Api.compress nf df i o ref Api.DEFAULT_MODE ll =
        (df i o ref ll, [⟨Api.Runner.docker, i, o, ref, ll⟩])) ∧
    (∀ (nf df : Api.DecompressFn) (i o : String) (ref : Option String),
      Api.decompress nf df i o ref Api.DEFAULT_MODE =
        (df i o ref, [⟨Api.Runner.docker, i, o, ref⟩])) := by
  refine ⟨rfl, ?_, ?_⟩ <;> intros <;>
    simp [Api.compress, Api.decompress, Api.getRunner, Api.DEFAULT_MODE]

end GenieWrapper
